import Mathlib

/-!
Verification of the hover-state logic of the react-overreact repository.

The repository contains several variants of the same small program: a list
of 500 hoverable items.  The React variants (`src/App.tsx`, both the plain
and the memoized one, and the inline variant) share a single piece of state,
`hoveredElementId : string`, initialised to the empty string; `mouseenter`
on item `i` sets it to `String(i)`, `mouseleave` on item `i` clears it to
`""` only when it currently equals `String(i)`.  An item is rendered
highlighted exactly when `hoveredElementId === String(i)`.  The vanilla-DOM
variant (`vanilla/index.js`) instead keeps an independent background-color
string per element: `mouseenter` on element `i` sets element `i`'s color to
`"#eee"`, `mouseleave` on element `i` resets element `i`'s color to `""`.

All state is embedded shallowly: machine state is passed explicitly, event
streams are lists folded over a step function, and JavaScript's two string
equalities (`==` and `===`) are modelled by the relevant fragment of the
ECMA-262 abstract and strict equality algorithms.
-/

namespace Overreact

/-- JavaScript runtime values of the types that occur at the equality
comparisons of this program: strings and (integral) numbers.  Identifiers in
the program are always produced by `String(i)` for a natural number `i`, so
fractional and `NaN` numbers never reach a comparison and `number` is
modelled as `Int`. -/
inductive JSVal where
  | str (s : String)
  | num (n : Int)
deriving DecidableEq

/-- ECMA-262 `ToNumber` on a string, restricted to the string shapes that
occur in this program: an optional-sign decimal digit string denotes the
corresponding integer, the empty string denotes `0`, and any other string
denotes `NaN`, modelled as `none`. -/
def strToNumber (s : String) : Option Int :=
  if s = "" then some 0 else s.toInt?

/-- ECMA-262 IsStrictlyEqual (the `===` operator) restricted to string and
number values: operands of different types are never strictly equal, and
same-type operands compare by value. -/
def jsStrictEq : JSVal → JSVal → Bool
  | .str a, .str b => a == b
  | .num a, .num b => a == b
  | _, _ => false

/-- ECMA-262 IsLooselyEqual (the `==` operator) restricted to string and
number values: operands of the same type compare exactly as with `===`; a
number and a string compare by converting the string with `ToNumber`, and a
`NaN` conversion result compares unequal to everything. -/
def jsLooseEq : JSVal → JSVal → Bool
  | .str a, .str b => a == b
  | .num a, .num b => a == b
  | .num a, .str b =>
    match strToNumber b with
    | some x => a == x
    | none => false
  | .str a, .num b =>
    match strToNumber a with
    | some x => x == b
    | none => false

/-! ### The shared-state (React) variants

`hoveredElementId` is the single piece of state, a string; the initial value
set by `useState("")` is the empty string, which encodes "nothing hovered".
-/

/-- The initial hover state, from `useState("")` in every React variant. -/
def initialHoverState : String := ""

/-- The identifier given to item `i`, from `id={String(i)}` in the element
loop of every React variant. -/
def elementId (i : Nat) : String := toString i

/-- `handleMouseEnter` of `App.tsx` (all React variants agree):
`setHoveredElementId(id)`, i.e. the new state is `id` unconditionally. -/
def handleMouseEnter (id hoveredElementId : String) : String :=
  id

/-- `handleMouseLeave` of the first `App.tsx` variant and of the inline
variant: `if (id == hoveredElementId) setHoveredElementId("")`, with the
loose `==` comparison. -/
def handleMouseLeave (id hoveredElementId : String) : String :=
  if jsLooseEq (.str id) (.str hoveredElementId) then "" else hoveredElementId

/-- `handleMouseLeave` of the memoized `App.tsx` variant:
`if (id === hoveredElementId) setHoveredElementId("")`, with the strict
`===` comparison. -/
def handleMouseLeaveStrict (id hoveredElementId : String) : String :=
  if jsStrictEq (.str id) (.str hoveredElementId) then "" else hoveredElementId

/-- `isHovered` of the `Element` component: every variant derives the
highlight with the strict comparison
`props.hoveredElementId === props.id`. -/
def isHovered (hoveredElementId id : String) : Bool :=
  jsStrictEq (.str hoveredElementId) (.str id)

/-- Item `i`'s derived highlight flag under hover state `s`:
`isHovered` applied to item `i`'s identifier. -/
def highlighted (s : String) (i : Nat) : Bool :=
  isHovered s (elementId i)

/-- A pointer event delivered to the shared-state variants: the `id`
carried is the string handed to `onMouseEnter`/`onMouseLeave`. -/
inductive HoverEvent where
  | enter (id : String)
  | leave (id : String)
deriving DecidableEq

/-- One serialized event-dispatch turn of the loose-equality variant. -/
def step (s : String) : HoverEvent → String
  | .enter id => handleMouseEnter id s
  | .leave id => handleMouseLeave id s

/-- One serialized event-dispatch turn of the strict-equality variant. -/
def stepStrict (s : String) : HoverEvent → String
  | .enter id => handleMouseEnter id s
  | .leave id => handleMouseLeaveStrict id s

/-- The hover state after delivering a list of events, one at a time, to
the loose-equality variant started in state `s`. -/
def run (s : String) (es : List HoverEvent) : String :=
  es.foldl step s

/-- The hover state after delivering a list of events, one at a time, to
the strict-equality variant started in state `s`. -/
def runStrict (s : String) (es : List HoverEvent) : String :=
  es.foldl stepStrict s

/-! ### The handlers as possibly-throwing JavaScript functions

A JavaScript event handler may in principle throw; the `Except`-valued
embedding records that possibility.  Neither handler contains any statement
that can throw (no property access on possibly-undefined values, no I/O, no
parsing), so every path returns `.ok`. -/

/-- `handleMouseEnter` with its failure behaviour made explicit: the single
statement `setHoveredElementId(id)` cannot throw. -/
def handleMouseEnterE (id hoveredElementId : String) : Except String String :=
  .ok id

/-- `handleMouseLeave` with its failure behaviour made explicit: the
comparison and the conditional assignment cannot throw. -/
def handleMouseLeaveE (id hoveredElementId : String) : Except String String :=
  if jsLooseEq (.str id) (.str hoveredElementId) then .ok "" else .ok hoveredElementId

/-! ### The vanilla-DOM variant

`vanilla/index.js` has no shared state at all: each of the 500 elements
carries its own `style.backgroundColor`, set to `"#eee"` by its own
`mouseenter` listener and reset to `""` by its own `mouseleave` listener.
The observable state is the background color of each element, indexed by
the element's position in the loop. -/

/-- A pointer event delivered to the vanilla-DOM variant, indexed by the
position of the element whose listener fires. -/
inductive VanillaEvent where
  | mouseenter (i : Nat)
  | mouseleave (i : Nat)
deriving DecidableEq

/-- The initial vanilla state: freshly created elements have no inline
background color, read back as the empty string. -/
def vanillaInit : Nat → String := fun _ => ""

/-- One event-dispatch turn of the vanilla variant: the firing element's
listener assigns only that element's `style.backgroundColor`. -/
def vanillaStep (bg : Nat → String) : VanillaEvent → Nat → String
  | .mouseenter i => fun j => if j = i then "#eee" else bg j
  | .mouseleave i => fun j => if j = i then "" else bg j

/-- The per-element background colors after delivering a list of events,
one at a time, to the vanilla variant started with colors `bg`. -/
def vanillaRun (bg : Nat → String) (es : List VanillaEvent) : Nat → String :=
  es.foldl vanillaStep bg

/-- Element `i` of the vanilla variant shows as highlighted exactly when
its background color is the one its `mouseenter` listener writes. -/
def vanillaHighlighted (bg : Nat → String) (i : Nat) : Bool :=
  bg i == "#eee"

/-! ### Decimal string representation of item identifiers

`String(i)` in JavaScript produces the decimal representation of `i`; the
embedding uses `toString`, i.e. `Nat.repr`.  The claims need that this
representation is injective and never the empty string, which is proved
here by relating `Nat.toDigits` (the implementation behind `Nat.repr`) to
`Nat.digits`. -/

theorem digitChar_injOn :
    ∀ a, a < 10 → ∀ b, b < 10 → Nat.digitChar a = Nat.digitChar b → a = b := by
  decide

theorem map_digitChar_inj :
    ∀ l₁ l₂ : List Nat, (∀ x ∈ l₁, x < 10) → (∀ x ∈ l₂, x < 10) →
      l₁.map Nat.digitChar = l₂.map Nat.digitChar → l₁ = l₂ := by
  intro l₁
  induction l₁ with
  | nil =>
    intro l₂ _ _ h
    cases l₂ with
    | nil => rfl
    | cons b t => simp at h
  | cons a t ih =>
    intro l₂ h₁ h₂ h
    cases l₂ with
    | nil => simp at h
    | cons b t' =>
      simp only [List.map_cons, List.cons.injEq] at h
      have ha : a < 10 := h₁ a (List.mem_cons_self a t)
      have hb : b < 10 := h₂ b (List.mem_cons_self b t')
      have hab : a = b := digitChar_injOn a ha b hb h.1
      have ht : t = t' :=
        ih t' (fun x hx => h₁ x (List.mem_cons_of_mem a hx))
          (fun x hx => h₂ x (List.mem_cons_of_mem b hx)) h.2
      rw [hab, ht]

theorem toDigitsCore_eq_digits :
    ∀ (f n : Nat) (acc : List Char), 0 < n → n ≤ f →
      Nat.toDigitsCore 10 f n acc =
        ((Nat.digits 10 n).map Nat.digitChar).reverse ++ acc := by
  intro f
  induction f with
  | zero => intro n acc hn hf; omega
  | succ f ih =>
    intro n acc hn hf
    rw [Nat.toDigitsCore]
    by_cases h : n / 10 = 0
    · have hlt : n < 10 := by omega
      have hd : Nat.digits 10 n = [n % 10] := by
        rw [Nat.digits_def' (by norm_num : (1 : Nat) < 10) hn, h]
        simp
      simp [h, hd]
    · have hpos : 0 < n / 10 := Nat.pos_of_ne_zero h
      have hlt : n / 10 < n := Nat.div_lt_self hn (by norm_num)
      have hle : n / 10 ≤ f := by omega
      have hd := Nat.digits_def' (by norm_num : (1 : Nat) < 10) hn
      simp only [h, if_false]
      rw [ih (n / 10) (Nat.digitChar (n % 10) :: acc) hpos hle, hd]
      simp [List.append_assoc]

theorem toDigits_eq_digits (n : Nat) (hn : 0 < n) :
    Nat.toDigits 10 n = ((Nat.digits 10 n).map Nat.digitChar).reverse := by
  rw [Nat.toDigits, toDigitsCore_eq_digits (n + 1) n [] hn (Nat.le_succ n),
    List.append_nil]

theorem digits_map_ne_zero_char (n : Nat) (hn : 0 < n)
    (h : (Nat.digits 10 n).map Nat.digitChar = ['0']) : False := by
  cases hd : Nat.digits 10 n with
  | nil => rw [hd] at h; simp at h
  | cons d l =>
    rw [hd] at h
    simp only [List.map_cons, List.cons.injEq] at h
    have hl : l = [] := List.map_eq_nil_iff.mp h.2
    have hdlt : d < 10 :=
      Nat.digits_lt_base (by norm_num) (hd ▸ List.mem_cons_self d l)
    have hd0 : d = 0 := digitChar_injOn d hdlt 0 (by norm_num) (by simpa using h.1)
    have hofd := Nat.ofDigits_digits 10 n
    rw [hd, hl, hd0] at hofd
    simp [Nat.ofDigits] at hofd
    omega

theorem Nat_repr_injective : Function.Injective Nat.repr := by
  intro m n h
  have h' : Nat.toDigits 10 m = Nat.toDigits 10 n := by
    have hdata := congrArg String.data h
    simpa [Nat.repr, List.asString] using hdata
  rcases Nat.eq_zero_or_pos m with hm | hm <;> rcases Nat.eq_zero_or_pos n with hn | hn
  · omega
  · exfalso
    subst hm
    rw [toDigits_eq_digits n hn] at h'
    have : (Nat.digits 10 n).map Nat.digitChar = ['0'] := by
      have := congrArg List.reverse h'
      simpa [Nat.toDigits, Nat.toDigitsCore] using this.symm
    exact digits_map_ne_zero_char n hn this
  · exfalso
    subst hn
    rw [toDigits_eq_digits m hm] at h'
    have : (Nat.digits 10 m).map Nat.digitChar = ['0'] := by
      have := congrArg List.reverse h'
      simpa [Nat.toDigits, Nat.toDigitsCore] using this
    exact digits_map_ne_zero_char m hm this
  · rw [toDigits_eq_digits m hm, toDigits_eq_digits n hn] at h'
    have hmap : (Nat.digits 10 m).map Nat.digitChar = (Nat.digits 10 n).map Nat.digitChar :=
      List.reverse_injective h'
    have hdig : Nat.digits 10 m = Nat.digits 10 n :=
      map_digitChar_inj _ _ (fun x hx => Nat.digits_lt_base (by norm_num) hx)
        (fun x hx => Nat.digits_lt_base (by norm_num) hx) hmap
    exact Nat.digits.injective 10 hdig

theorem Nat_repr_ne_empty (n : Nat) : Nat.repr n ≠ "" := by
  rcases Nat.eq_zero_or_pos n with hn | hn
  · subst hn; decide
  · intro hc
    have hdata := congrArg String.data hc
    rw [Nat.repr] at hdata
    simp only [List.asString] at hdata
    rw [toDigits_eq_digits n hn] at hdata
    have : (Nat.digits 10 n).map Nat.digitChar = [] := by
      simpa using congrArg List.reverse hdata
    have : Nat.digits 10 n = [] := List.map_eq_nil_iff.mp this
    exact (Nat.digits_ne_nil_iff_ne_zero.mpr (by omega)) this

theorem elementId_injective : Function.Injective elementId := by
  intro m n h
  exact Nat_repr_injective h

theorem elementId_ne_empty (i : Nat) : elementId i ≠ "" :=
  Nat_repr_ne_empty i

/-! ### Basic facts about the embedded operations -/

theorem highlighted_eq_true_iff (s : String) (i : Nat) :
    highlighted s i = true ↔ s = elementId i := by
  simp [highlighted, isHovered, jsStrictEq]

theorem handleMouseLeave_eq (id s : String) :
    handleMouseLeave id s = if id = s then "" else s := by
  simp [handleMouseLeave, jsLooseEq]

theorem handleMouseLeaveStrict_eq (id s : String) :
    handleMouseLeaveStrict id s = if id = s then "" else s := by
  simp [handleMouseLeaveStrict, jsStrictEq]

theorem vanillaRun_mem (es : List VanillaEvent) :
    ∀ bg : Nat → String, (∀ j, bg j = "" ∨ bg j = "#eee") →
      ∀ j, vanillaRun bg es j = "" ∨ vanillaRun bg es j = "#eee" := by
  induction es with
  | nil => intro bg hbg j; exact hbg j
  | cons e es ih =>
    intro bg hbg j
    have hstep : ∀ j, vanillaStep bg e j = "" ∨ vanillaStep bg e j = "#eee" := by
      intro j
      cases e with
      | mouseenter i =>
        by_cases h : j = i <;> simp [vanillaStep, h] <;> exact hbg j
      | mouseleave i =>
        by_cases h : j = i <;> simp [vanillaStep, h] <;> exact hbg j
    exact ih (vanillaStep bg e) hstep j

theorem vanillaInit_mem (j : Nat) : vanillaInit j = "" ∨ vanillaInit j = "#eee" :=
  Or.inl rfl

/-! ### The claims -/

/-- C1: a leave event for an item that is not the currently-hovered item is a
no-op, in every variant.  In both shared-state variants, `onLeave(id)` when
HoverState differs from `id` (including the "none" state `""`) leaves
HoverState unchanged; in the vanilla variant, a `mouseleave` on an element
that is not currently highlighted leaves every element's background color
unchanged (from any reachable state). -/
theorem hover_C1_stale_leave_noop :
    (∀ id s : String, s ≠ id →
      handleMouseLeave id s = s ∧ handleMouseLeaveStrict id s = s) ∧
    (∀ (es : List VanillaEvent) (i : Nat),
      vanillaHighlighted (vanillaRun vanillaInit es) i = false →
      vanillaStep (vanillaRun vanillaInit es) (VanillaEvent.mouseleave i) =
        vanillaRun vanillaInit es) := by
  constructor
  · intro id s hne
    constructor
    · rw [handleMouseLeave_eq, if_neg (fun h => hne h.symm)]
    · rw [handleMouseLeaveStrict_eq, if_neg (fun h => hne h.symm)]
  · intro es i hfalse
    simp only [vanillaHighlighted, beq_eq_false_iff_ne, ne_eq] at hfalse
    have hmem := vanillaRun_mem es vanillaInit vanillaInit_mem i
    have hempty : vanillaRun vanillaInit es i = "" := by
      rcases hmem with h | h
      · exact h
      · exact absurd h hfalse
    funext j
    simp only [vanillaStep]
    by_cases hji : j = i
    · rw [if_pos hji, hji, hempty]
    · rw [if_neg hji]

/-- C1 witness: a stale leave of item 3 while item 7 is hovered is a no-op,
and a vanilla mouseleave on the non-highlighted element 5 changes nothing. -/
theorem hover_C1_witness :
    handleMouseLeave (elementId 3) (elementId 7) = elementId 7 ∧
    vanillaStep (vanillaRun vanillaInit [VanillaEvent.mouseenter 2])
        (VanillaEvent.mouseleave 5) =
      vanillaRun vanillaInit [VanillaEvent.mouseenter 2] :=
  ⟨(hover_C1_stale_leave_noop.1 (elementId 3) (elementId 7) (by decide)).1,
   hover_C1_stale_leave_noop.2 [VanillaEvent.mouseenter 2] 5 (by decide)⟩

/-- C2 counterexample: the claim quantifies over every variant and every
serialized event sequence, but in the vanilla variant the sequence
mouseenter 3; mouseenter 7 from the initial state leaves the two distinct
items 3 and 7 highlighted at the same observable point. -/
theorem hover_C2_counterexample :
    vanillaHighlighted
        (vanillaRun vanillaInit
          [VanillaEvent.mouseenter 3, VanillaEvent.mouseenter 7]) 3 = true ∧
    vanillaHighlighted
        (vanillaRun vanillaInit
          [VanillaEvent.mouseenter 3, VanillaEvent.mouseenter 7]) 7 = true ∧
    (3 : Nat) ≠ 7 := by
  decide

/-- C2 (amended): in the shared-HoverState variants (loose- and strict-guard
alike), after any serialized event sequence from the initial "none" state,
at most one item's highlighted flag is true. -/
theorem hover_C2_mutual_exclusion (es : List HoverEvent) (i j : Nat) :
    (highlighted (run initialHoverState es) i = true →
      highlighted (run initialHoverState es) j = true → i = j) ∧
    (highlighted (runStrict initialHoverState es) i = true →
      highlighted (runStrict initialHoverState es) j = true → i = j) := by
  constructor <;>
  · intro hi hj
    apply elementId_injective
    rw [← (highlighted_eq_true_iff _ _).mp hi, ← (highlighted_eq_true_iff _ _).mp hj]

/-- C2 witness: instantiating mutual exclusivity after entering item 5. -/
theorem hover_C2_witness : (5 : Nat) = 5 :=
  (hover_C2_mutual_exclusion [HoverEvent.enter (elementId 5)] 5 5).1
    (by decide) (by decide)

/-- C3: from any hover state, the sequence onEnter(3); onEnter(7); onLeave(3)
ends with HoverState equal to item 7's identifier, in both shared-state
variants: the late leave from item 3 does not clear the newer hover. -/
theorem hover_C3_late_leave (s : String) :
    run s [HoverEvent.enter (elementId 3), HoverEvent.enter (elementId 7),
      HoverEvent.leave (elementId 3)] = elementId 7 ∧
    runStrict s [HoverEvent.enter (elementId 3), HoverEvent.enter (elementId 7),
      HoverEvent.leave (elementId 3)] = elementId 7 :=
  ⟨rfl, rfl⟩

/-- C4 counterexample: the claim quantifies over every variant, but in the
vanilla variant, immediately after mouseenter 1 (reached after an earlier
mouseenter 0 with no intervening leave), item 0 ≠ 1 is still highlighted,
where the claim demands that every item other than 1 be unhighlighted. -/
theorem hover_C4_counterexample :
    vanillaHighlighted
        (vanillaStep (vanillaStep vanillaInit (VanillaEvent.mouseenter 0))
          (VanillaEvent.mouseenter 1)) 0 = true ∧
    (0 : Nat) ≠ 1 := by
  decide

/-- C4 (amended): in the shared-HoverState variants, immediately after
`onEnter(i)` from any current state and before any other event, item i is
highlighted and every other item is not. -/
theorem hover_C4_enter_exclusive (s : String) (i j : Nat) (hne : j ≠ i) :
    highlighted (handleMouseEnter (elementId i) s) i = true ∧
    highlighted (handleMouseEnter (elementId i) s) j = false := by
  constructor
  · exact (highlighted_eq_true_iff _ _).mpr rfl
  · have : ¬ (highlighted (handleMouseEnter (elementId i) s) j = true) := by
      rw [highlighted_eq_true_iff]
      intro hc
      exact hne (elementId_injective hc).symm
    simpa using this

/-- C4 witness: after entering item 2 from the initial state, item 2 is
highlighted and item 9 is not. -/
theorem hover_C4_witness :
    highlighted (handleMouseEnter (elementId 2) initialHoverState) 2 = true ∧
    highlighted (handleMouseEnter (elementId 2) initialHoverState) 9 = false :=
  hover_C4_enter_exclusive initialHoverState 2 9 (by decide)

/-- C5: when HoverState equals item i's identifier, `onLeave(i)` sets it to
the "none" state `""` (in both shared-state variants), and afterwards every
item's highlighted flag is false. -/
theorem hover_C5_leave_clears (i : Nat) (s : String) (h : s = elementId i) :
    handleMouseLeave (elementId i) s = "" ∧
    handleMouseLeaveStrict (elementId i) s = "" ∧
    ∀ j : Nat, highlighted (handleMouseLeave (elementId i) s) j = false := by
  subst h
  refine ⟨?_, ?_, ?_⟩
  · rw [handleMouseLeave_eq, if_pos rfl]
  · rw [handleMouseLeaveStrict_eq, if_pos rfl]
  · intro j
    rw [handleMouseLeave_eq, if_pos rfl]
    have : ¬ (highlighted "" j = true) := by
      rw [highlighted_eq_true_iff]
      exact fun hc => elementId_ne_empty j hc.symm
    simpa using this

/-- C5 witness: leaving item 0 while it is hovered clears the state, and no
item (e.g. item 123) is highlighted afterwards. -/
theorem hover_C5_witness :
    handleMouseLeave (elementId 0) "0" = "" ∧
    highlighted (handleMouseLeave (elementId 0) "0") 123 = false :=
  ⟨(hover_C5_leave_clears 0 "0" (by decide)).1,
   (hover_C5_leave_clears 0 "0" (by decide)).2.2 123⟩

/-- C6: `onEnter(id)` sets HoverState to `id` from any current state, and is
idempotent: entering the same id twice in a row yields the same state as
entering it once. -/
theorem hover_C6_enter_idempotent (id s : String) :
    handleMouseEnter id s = id ∧
    handleMouseEnter id (handleMouseEnter id s) = handleMouseEnter id s :=
  ⟨rfl, rfl⟩

/-- C7: for every item identifier String(i) with i < 500 and every hover
state, the loose-equality and the strict-equality leave handlers produce the
same resulting HoverState: both guard operands are strings, and ECMA-262
loose equality on same-type operands is strict equality. -/
theorem hover_C7_loose_strict_agree (i : Nat) (hi : i < 500) (s : String) :
    handleMouseLeave (elementId i) s = handleMouseLeaveStrict (elementId i) s := by
  rw [handleMouseLeave_eq, handleMouseLeaveStrict_eq]

/-- C7 witness: the two leave handlers agree at item 42 and state "7". -/
theorem hover_C7_witness :
    handleMouseLeave (elementId 42) "7" = handleMouseLeaveStrict (elementId 42) "7" :=
  hover_C7_loose_strict_agree 42 (by decide) "7"

/-- C8: for every identifier (including identifiers outside 0..499 and the
empty string) and every current state, both handlers return normally — never
an error — and a leave for a non-hovered id returns the state unchanged
rather than failing. -/
theorem hover_C8_no_failure (id s : String) :
    handleMouseEnterE id s = Except.ok (handleMouseEnter id s) ∧
    handleMouseLeaveE id s = Except.ok (handleMouseLeave id s) ∧
    (s ≠ id → handleMouseLeaveE id s = Except.ok s) := by
  refine ⟨rfl, ?_, ?_⟩
  · by_cases h : jsLooseEq (.str id) (.str s) = true <;>
      simp [handleMouseLeaveE, handleMouseLeave, h]
  · intro hne
    have hguard : jsLooseEq (.str id) (.str s) = false := by
      simp only [jsLooseEq, beq_eq_false_iff_ne, ne_eq]
      exact fun h => hne h.symm
    simp [handleMouseLeaveE, hguard]

/-- C8 witness: an out-of-range identifier and the empty identifier are both
handled without error, and the stale leave returns the state unchanged. -/
theorem hover_C8_witness :
    handleMouseEnterE "1000000" "" = Except.ok (handleMouseEnter "1000000" "") ∧
    handleMouseLeaveE "" "x" = Except.ok "x" :=
  ⟨(hover_C8_no_failure "1000000" "").1,
   (hover_C8_no_failure "" "x").2.2 (by decide)⟩

/-- C9: the "none" hover state is encoded as the empty string, every item
identifier is a non-empty string, and in the initial empty-string state no
item's highlighted flag is true. -/
theorem hover_C9_sentinel_distinct :
    initialHoverState = "" ∧
    ∀ i : Nat, elementId i ≠ "" ∧ highlighted initialHoverState i = false := by
  refine ⟨rfl, fun i => ⟨elementId_ne_empty i, ?_⟩⟩
  have : ¬ (highlighted initialHoverState i = true) := by
    rw [highlighted_eq_true_iff]
    exact fun hc => elementId_ne_empty i hc.symm
  simpa using this

/-- C10: `onLeave(id)` is idempotent in both shared-state variants: applying
it twice in a row yields the same state as applying it once. -/
theorem hover_C10_leave_idempotent (id s : String) :
    handleMouseLeave id (handleMouseLeave id s) = handleMouseLeave id s ∧
    handleMouseLeaveStrict id (handleMouseLeaveStrict id s) =
      handleMouseLeaveStrict id s := by
  constructor
  · simp only [handleMouseLeave_eq]
    by_cases h : id = s <;> simp [h]
  · simp only [handleMouseLeaveStrict_eq]
    by_cases h : id = s <;> simp [h]

end Overreact
